import Mathlib

/-!
Verification development for the expense-analyzer backend.

The analytics engine (`services/expense_analyzer.py`), the analysis routes
(`routes/analysis.py`), the monthly-report aggregation (`routes/reports.py`)
and the record loader (`models/expense.py`) are shallowly embedded below.
Monetary amounts are modelled as rationals; Python `round(x, 2)` (and pandas
`.round(2)`) is modelled as `round2`.  Timestamps are modelled as a Gregorian
calendar date plus a fractional time-of-day; the `year`/`isocalendar().week`
fields used by the trend computation are reimplemented from the standard
ISO-8601 week algorithm.  Human-readable message strings, record ids and
descriptions, logging and the Flask/Mongo/Postgres plumbing are not part of
any claim and are not modelled; the `highest_spending_day` /
`lowest_spending_day` fields of the trend report are likewise outside the
claims and omitted.
-/

namespace ExpenseAnalyzer

/-- Gregorian calendar timestamp: a date plus the time of day expressed as a
fraction of a day (0 = midnight, the first instant of the day). -/
structure Timestamp where
  year : Nat
  month : Nat
  day : Nat
  tod : ℚ
deriving DecidableEq, Repr

def isLeap (y : Nat) : Bool :=
  (y % 4 == 0 && y % 100 != 0) || y % 400 == 0

def daysInMonth (y m : Nat) : Nat :=
  if m == 2 then (if isLeap y then 29 else 28)
  else if m == 4 || m == 6 || m == 9 || m == 11 then 30
  else 31

/-- 1-based ordinal of the date within its year. -/
def dayOfYear (y m d : Nat) : Nat :=
  ((List.range (m - 1)).map (fun i => daysInMonth y (i + 1))).sum + d

/-- Rata Die day number: day 1 is 0001-01-01 (a Monday). -/
def rataDie (y m d : Nat) : Nat :=
  365 * (y - 1) + (y - 1) / 4 - (y - 1) / 100 + (y - 1) / 400 + dayOfYear y m d

/-- ISO weekday, Monday = 1 .. Sunday = 7. -/
def isoWeekday (y m d : Nat) : Nat :=
  (rataDie y m d - 1) % 7 + 1

/-- Number of ISO weeks in a year: 53 iff Jan 1 is a Thursday, or the year is
leap and Jan 1 is a Wednesday; else 52. -/
def isoWeeksInYear (y : Nat) : Nat :=
  if isoWeekday y 1 1 == 4 || (isLeap y && isoWeekday y 1 1 == 3) then 53 else 52

/-- ISO-8601 week number of a date (as returned by pandas
`Series.dt.isocalendar().week`). -/
def isoWeekNumber (y m d : Nat) : Nat :=
  let w := (dayOfYear y m d + 10 - isoWeekday y m d) / 7
  if w < 1 then isoWeeksInYear (y - 1)
  else if isoWeeksInYear y < w then 1
  else w

/-- Timeline position of a timestamp, in (fractional) days. -/
def Timestamp.toQ (t : Timestamp) : ℚ :=
  (rataDie t.year t.month t.day : ℚ) + t.tod

/-- Python `round(x, 2)`, on rationals. -/
def round2 (q : ℚ) : ℚ := (round (q * 100) : ℤ) / 100

/-- One expense record (`Expense` in `models/expense.py`); the `id` and
`description` fields play no part in any analytics and are omitted. -/
structure Expense where
  user_id : String
  amount : ℚ
  category : String
  date : Timestamp
deriving DecidableEq, Repr

/-! ### Sorting (Python `sorted` / `list.sort`: stable) -/

/-- Insert `x` into `l`, placing it in front of the first element `y` with
`le x y`; combined with `sortLe` this is a stable insertion sort. -/
def insertLe {α : Type} (le : α → α → Bool) (x : α) : List α → List α
  | [] => [x]
  | y :: ys => if le x y then x :: y :: ys else y :: insertLe le x ys

/-- Stable insertion sort: an earlier element stays in front of any later
element it compares `le` to (mirrors Python's stable `sorted`). -/
def sortLe {α : Type} (le : α → α → Bool) : List α → List α
  | [] => []
  | x :: xs => insertLe le x (sortLe le xs)

/-- Lexicographic comparison of character lists by code point, as Python
compares strings. -/
def charListLt : List Char → List Char → Bool
  | _, [] => false
  | [], _ :: _ => true
  | a :: as, b :: bs =>
    if a.toNat < b.toNat then true
    else if b.toNat < a.toNat then false
    else charListLt as bs

def strLt (a b : String) : Bool := charListLt a.data b.data

def strLe (a b : String) : Bool := !(strLt b a)

/-! ### Grouping keys (Python dict insertion order / pandas groupby keys) -/

/-- Append `c` to `acc` unless already present: one step of collecting dict
keys in insertion order. -/
def insertKey {α : Type} [DecidableEq α] (acc : List α) (c : α) : List α :=
  if c ∈ acc then acc else acc ++ [c]

/-- The distinct elements of `l` in first-occurrence order (the key order of a
Python dict built by repeated insertion). -/
def keysInOrder {α : Type} [DecidableEq α] (l : List α) : List α :=
  l.foldl insertKey []

/-! ### Category aggregation (`ExpenseAnalyzer.analyze_spending_by_category`) -/

def totalAmount (rs : List Expense) : ℚ := (rs.map (·.amount)).sum

def listMaxQ : List ℚ → ℚ
  | [] => 0
  | x :: xs => xs.foldl max x

def listMinQ : List ℚ → ℚ
  | [] => 0
  | x :: xs => xs.foldl min x

/-- Per-category statistics (one row of the `category_analysis` dict). -/
structure CatStats where
  total_spent : ℚ
  transaction_count : Nat
  average_amount : ℚ
  min_amount : ℚ
  max_amount : ℚ
  percentage_of_total : ℚ
deriving DecidableEq, Repr

def catRecords (rs : List Expense) (c : String) : List Expense :=
  rs.filter (fun r => r.category == c)

def catSum (rs : List Expense) (c : String) : ℚ :=
  totalAmount (catRecords rs c)

/-- The distinct categories of `rs`, sorted ascending (pandas `groupby` sorts
its group keys). -/
def sortedCategories (rs : List Expense) : List String :=
  sortLe strLe (keysInOrder (rs.map (·.category)))

/-- Statistics of one category group: pandas aggregates sum/count/mean/min/max
and rounds them via `.round(2)`; the percentage divides the *rounded* group
sum by the unrounded overall total `T` and rounds again (source lines 57-75).
When `T` is not positive the percentage is 0. -/
def catStatsFor (rs : List Expense) (T : ℚ) (c : String) : CatStats :=
  let g := catRecords rs c
  let s := totalAmount g
  { total_spent := round2 s
    transaction_count := g.length
    average_amount := round2 (s / (g.length : ℚ))
    min_amount := round2 (listMinQ (g.map (·.amount)))
    max_amount := round2 (listMaxQ (g.map (·.amount)))
    percentage_of_total := if 0 < T then round2 (round2 s / T * 100) else 0 }

def analyze_spending_by_category (rs : List Expense) : List (String × CatStats) :=
  (sortedCategories rs).map (fun c => (c, catStatsFor rs (totalAmount rs) c))

/-! ### Trend computation (`ExpenseAnalyzer.get_spending_trends`) -/

/-- The `year_week` grouping key: `str(dt.year) + "-W" + str(isocalendar().week)`
(note: no zero padding of the week number). -/
def yearWeekKey (t : Timestamp) : String :=
  toString t.year ++ "-W" ++ toString (isoWeekNumber t.year t.month t.day)

def weekKeyRecords (rs : List Expense) (k : String) : List Expense :=
  rs.filter (fun r => yearWeekKey r.date == k)

/-- Group-sum of amounts for one `year_week` key (`weekly_spending[k]`). -/
def weeklyTotal (rs : List Expense) (k : String) : ℚ :=
  totalAmount (weekKeyRecords rs k)

/-- `weeks = sorted(weekly_spending.keys())`: the distinct key *strings* in
lexicographic order. -/
def sortedWeeks (rs : List Expense) : List String :=
  sortLe strLe (keysInOrder (rs.map (fun r => yearWeekKey r.date)))

def weekly_spending (rs : List Expense) : List (String × ℚ) :=
  (sortedWeeks rs).map (fun k => (k, weeklyTotal rs k))

/-- `weeks[-2:] if len(weeks) >= 2 else weeks[-1:]`. -/
def recentWeeks (rs : List Expense) : List String :=
  let w := sortedWeeks rs
  if 2 ≤ w.length then w.drop (w.length - 2) else w.drop (w.length - 1)

/-- `weeks[:2] if len(weeks) >= 4 else weeks[:1]`. -/
def earlierWeeks (rs : List Expense) : List String :=
  let w := sortedWeeks rs
  if 4 ≤ w.length then w.take 2 else w.take 1

/-- `sum(weekly_spending[w] for w in ws) / len(ws)`. -/
def avgOver (rs : List Expense) (ws : List String) : ℚ :=
  ((ws.map (weeklyTotal rs)).sum) / (ws.length : ℚ)

/-- `recent_weekly_avg` before the final rounding: 0 unless at least two
distinct weeks exist. -/
def recentAvgRaw (rs : List Expense) : ℚ :=
  if 2 ≤ (sortedWeeks rs).length then avgOver rs (recentWeeks rs) else 0

/-- `earlier_weekly_avg` before the final rounding. -/
def earlierAvgRaw (rs : List Expense) : ℚ :=
  if 2 ≤ (sortedWeeks rs).length then avgOver rs (earlierWeeks rs) else 0

/-- The trend classification (source lines 98-115): thresholds at 1.1 and 0.9
times the earlier average, applied to the unrounded averages. -/
def trendLabel (rs : List Expense) : String :=
  if 2 ≤ (sortedWeeks rs).length then
    if earlierAvgRaw rs * (11 / 10) < recentAvgRaw rs then "increasing"
    else if recentAvgRaw rs < earlierAvgRaw rs * (9 / 10) then "decreasing"
    else "stable"
  else "insufficient_data"

/-- The dictionary returned by `get_spending_trends` (the per-day
highest/lowest fields are outside the claims and omitted). -/
structure TrendReport where
  weeklySpending : List (String × ℚ)
  daily_average : ℚ
  trend : String
  recent_weekly_avg : ℚ
  earlier_weekly_avg : ℚ
deriving DecidableEq, Repr

/-- `get_spending_trends`: `none` models the empty dict returned for an empty
dataframe.  Note `daily_average` divides by the constant 30 (source line 122). -/
def get_spending_trends (rs : List Expense) : Option TrendReport :=
  if rs.isEmpty then none
  else some
    { weeklySpending := weekly_spending rs
      daily_average := round2 (totalAmount rs / 30)
      trend := trendLabel rs
      recent_weekly_avg := round2 (recentAvgRaw rs)
      earlier_weekly_avg := round2 (earlierAvgRaw rs) }

/-! ### Suggestion rule engine (`ExpenseAnalyzer.generate_smart_suggestions`)

The engine receives the trend data as a plain dict; `TrendsDict` models the
keys it reads.  Subscripting a missing key (`trends['earlier_weekly_avg']`)
raises `KeyError` in Python, modelled by the `Except Unit` monad; the
`try/except` wrapper of the source maps any such failure to the single
error/low fallback suggestion. -/

structure TrendsDict where
  trend : Option String
  recent_weekly_avg : Option ℚ
  earlier_weekly_avg : Option ℚ
deriving DecidableEq, Repr

def TrendReport.toDict (t : TrendReport) : TrendsDict :=
  { trend := some t.trend
    recent_weekly_avg := some t.recent_weekly_avg
    earlier_weekly_avg := some t.earlier_weekly_avg }

/-- The empty dict `{}` as seen by the suggestion engine. -/
def emptyTrendsDict : TrendsDict := ⟨none, none, none⟩

/-- One suggestion.  The Python dicts carry a `type` key (modelled as `kind`),
an informal `message` (not modelled) and the optional numeric fields below. -/
structure Sugg where
  kind : String
  category : Option String := none
  priority : String
  current_spending : Option ℚ := none
  suggested_reduction : Option ℚ := none
  transaction_count : Option Nat := none
  trend : Option String := none
  suggested_budget : Option ℚ := none
deriving DecidableEq, Repr

/-- `trends['key']`: dict subscription, `KeyError` on a missing key. -/
def getItem {α : Type} : Option α → Except Unit α
  | some a => Except.ok a
  | none => Except.error ()

def warnSugg (c : String) (d : CatStats) : Sugg :=
  { kind := "warning", category := some c, priority := "high",
    current_spending := some d.total_spent,
    suggested_reduction := some (round2 (d.total_spent * (175 / 1000))) }

def tipSugg (c : String) (d : CatStats) : Sugg :=
  { kind := "tip", category := some c, priority := "medium",
    current_spending := some d.total_spent }

def alertSugg : Sugg := { kind := "alert", priority := "high", trend := some "increasing" }

def positiveSugg : Sugg := { kind := "positive", priority := "low", trend := some "decreasing" }

def freqSugg (c : String) (d : CatStats) : Sugg :=
  { kind := "tip", category := some c, priority := "medium",
    transaction_count := some d.transaction_count }

def budgetSugg (total : ℚ) : Sugg :=
  { kind := "budget", priority := "medium", current_spending := some total,
    suggested_budget := some (round2 (total * (9 / 10))) }

def infoSugg : Sugg := { kind := "info", priority := "low" }

def errorSugg : Sugg := { kind := "error", priority := "low" }

def balancedSugg : Sugg := { kind := "positive", priority := "low" }

/-- `priority_order = {'high': 3, 'medium': 2, 'low': 1}` with `.get(_, 1)`. -/
def priorityOrder (p : String) : Nat :=
  if p == "high" then 3 else if p == "medium" then 2 else 1

/-- The comparator realising `sorted(..., key=total_spent, reverse=True)` as a
stable sort: an earlier entry stays in front of a later one unless the later
entry's total is strictly larger. -/
def catLe (a b : String × CatStats) : Bool :=
  decide (b.2.total_spent ≤ a.2.total_spent)

/-- Categories ranked by `total_spent` descending (`sorted(..., reverse=True)`,
stable), truncated to the top 3 and run through the high-spending /
top-category rules (source lines 153-178). -/
def highCatSuggs (ca : List (String × CatStats)) : List Sugg :=
  ((sortLe catLe ca).take 3).filterMap
    (fun cd =>
      if 30 < cd.2.percentage_of_total then some (warnSugg cd.1 cd.2)
      else if 20 < cd.2.percentage_of_total then some (tipSugg cd.1 cd.2)
      else none)

/-- Trend-based rules (source lines 181-194): the messages interpolate
`trends['earlier_weekly_avg']` and `trends['recent_weekly_avg']`, so both
branches subscript the dict and can raise `KeyError`. -/
def trendSuggs (tr : TrendsDict) : Except Unit (List Sugg) :=
  if tr.trend == some "increasing" then do
    let _ ← getItem tr.earlier_weekly_avg
    let _ ← getItem tr.recent_weekly_avg
    pure [alertSugg]
  else if tr.trend == some "decreasing" then do
    let _ ← getItem tr.earlier_weekly_avg
    let _ ← getItem tr.recent_weekly_avg
    pure [positiveSugg]
  else pure []

/-- High-frequency rule (source lines 197-205): every category with more than
15 transactions. -/
def freqSuggs (ca : List (String × CatStats)) : List Sugg :=
  ca.filterMap (fun cd =>
    if 15 < cd.2.transaction_count then some (freqSugg cd.1 cd.2) else none)

/-- Budget rule (source lines 208-216). -/
def budgetSuggs (total : ℚ) : List Sugg :=
  if 0 < total then [budgetSugg total] else []

/-- Body of the `try:` block: collect all rule outputs, stable-sort by
priority rank descending, and fall back to the single positive message if the
list is empty. -/
def suggLe (a b : Sugg) : Bool :=
  decide (priorityOrder b.priority ≤ priorityOrder a.priority)

def suggBody (ca : List (String × CatStats)) (tr : TrendsDict) (total : ℚ) :
    Except Unit (List Sugg) := do
  let ts ← trendSuggs tr
  let all := highCatSuggs ca ++ ts ++ freqSuggs ca ++ budgetSuggs total
  let sortedAll := sortLe suggLe all
  pure (if sortedAll.isEmpty then [balancedSugg] else sortedAll)

/-- `generate_smart_suggestions`: empty category analysis short-circuits to the
info suggestion; any failure inside the body is caught and replaced by the
single error/low fallback (source lines 228-234). -/
def generate_smart_suggestions (ca : List (String × CatStats)) (tr : TrendsDict)
    (total : ℚ) : List Sugg :=
  if ca.isEmpty then [infoSugg]
  else
    match suggBody ca tr total with
    | Except.ok l => l
    | Except.error _ => [errorSugg]

/-! ### Record loader (`Expense.find_by_user_id`) and route entry points -/

/-- `Expense.find_by_user_id`: Mongo query `userId == u`, `date >= start`
(`$gte`), `date <= end` (`$lte`), `category == c`, then `.sort('date', -1)`
(descending by timestamp; modelled as a stable sort). -/
def dateDescLe (a b : Expense) : Bool := decide (b.date.toQ ≤ a.date.toQ)

def find_by_user_id (db : List Expense) (u : String) (startDate endDate : Option ℚ)
    (cat : Option String) : List Expense :=
  sortLe dateDescLe
    (db.filter (fun e =>
      e.user_id == u
      && (match startDate with | some s => decide (s ≤ e.date.toQ) | none => true)
      && (match endDate with | some t => decide (e.date.toQ ≤ t) | none => true)
      && (match cat with | some c => e.category == c | none => true)))

/-- The `data` object of `get_comprehensive_analysis`.  In the empty-state
response the `trends`/`average_daily_spending`/`top_category` keys are absent
or empty; absent keys and the empty dict are modelled as `none`.  The
`analysis_date` wall-clock timestamp is not modelled. -/
structure AnalysisData where
  total_expenses : ℚ
  expense_count : Nat
  category_analysis : List (String × CatStats)
  trends : Option TrendReport
  suggestions : List Sugg
  period : String
  average_daily_spending : Option ℚ
  top_category : Option String
deriving DecidableEq, Repr

/-- Python `max(items, key=...)`: the first element with the maximal key. -/
def firstArgmax {α : Type} (key : α → ℚ) : List α → Option α
  | [] => none
  | x :: xs => some (xs.foldl (fun b y => if key b < key y then y else b) x)

def topCategoryOf (ca : List (String × CatStats)) : Option String :=
  (firstArgmax (fun cd => cd.2.total_spent) ca).map (·.1)

/-- `ExpenseAnalyzer.get_comprehensive_analysis` for one user: loads the
last-30-days window (`now` is the wall-clock instant, in days) and assembles
the result (source lines 236-279). -/
def get_comprehensive_analysis (now : ℚ) (db : List Expense) (u : String) :
    AnalysisData :=
  let rs := find_by_user_id db u (some (now - 30)) none none
  if rs.isEmpty then
    { total_expenses := 0, expense_count := 0, category_analysis := [],
      trends := none, suggestions := [infoSugg], period := "30 days",
      average_daily_spending := none, top_category := none }
  else
    let total := totalAmount rs
    let ca := analyze_spending_by_category rs
    let tr := get_spending_trends rs
    { total_expenses := round2 total
      expense_count := rs.length
      category_analysis := ca
      trends := tr
      suggestions :=
        generate_smart_suggestions ca
          (match tr with | some t => t.toDict | none => emptyTrendsDict) total
      period := "30 days"
      average_daily_spending := some (round2 (total / 30))
      top_category := topCategoryOf ca }

/-- The `/analysis/trends` route: loads a window of `days` days (query
parameter, default 30) and returns the trend report; `none` models the
"no expense data" response for an empty window. -/
def trendsEndpoint (days : Nat) (now : ℚ) (db : List Expense) (u : String) :
    Option TrendReport :=
  let rs := find_by_user_id db u (some (now - (days : ℚ))) none none
  if rs.isEmpty then none else get_spending_trends rs

/-- The `data` object of the `/analysis/category/<category>` route. -/
structure CategoryInsight where
  category : String
  total_spent : ℚ
  transaction_count : Nat
  average_transaction : ℚ
  highest_expense : ℚ
  lowest_expense : ℚ
  daily_average : ℚ
  recent_transactions : List Expense
deriving DecidableEq, Repr

/-- The insight record of `get_category_insights` (routes/analysis.py lines
59-72), built from a non-empty slice `es` (newest first): aggregates plus
`recent_transactions = expenses[-5:]`, the last 5 elements of the newest-first
list. -/
def insightFor (c : String) (es : List Expense) : CategoryInsight :=
  { category := c
    total_spent := round2 (es.map (·.amount)).sum
    transaction_count := es.length
    average_transaction := round2 ((es.map (·.amount)).sum / (es.length : ℚ))
    highest_expense := listMaxQ (es.map (·.amount))
    lowest_expense := listMinQ (es.map (·.amount))
    daily_average := round2 ((es.map (·.amount)).sum / 30)
    recent_transactions := es.drop (es.length - 5) }

/-- `get_category_insights` (routes/analysis.py lines 35-77): loads the
category's last-30-days slice; `none` models the "no expenses found"
response, else the insight record is built from the slice. -/
def get_category_insights (now : ℚ) (db : List Expense) (u : String) (c : String) :
    Option CategoryInsight :=
  let es := find_by_user_id db u (some (now - 30)) none (some c)
  if es.isEmpty then none
  else some (insightFor c es)

/-! ### Monthly reports (`routes/reports.py`) -/

/-- Timeline position of `datetime(y, m, 1)`, the first instant of a month. -/
def monthStartQ (y m : Nat) : ℚ := (rataDie y m 1 : ℚ)

/-- The exclusive upper bound of the month window: the first instant of the
next month, with December rolling over to January of the next year
(source lines 27-31). -/
def monthEndQ (y m : Nat) : ℚ :=
  if m == 12 then monthStartQ (y + 1) 1 else monthStartQ y (m + 1)

/-- `get_monthly_expenses`: Mongo query `userId == u`, `date >= start` (`$gte`)
and `date < end` (`$lt`, strict). -/
def get_monthly_expenses (db : List Expense) (u : String) (month year : Nat) :
    List Expense :=
  db.filter (fun e =>
    e.user_id == u
    && decide (monthStartQ year month ≤ e.date.toQ)
    && decide (e.date.toQ < monthEndQ year month))

/-- The report metrics of `calculate_report_data` (the `overbudgetCategories`
stub, which always returns `[]`, is omitted). -/
structure ReportData where
  totalSpent : ℚ
  topCategory : Option String
  categoryBreakdown : List (String × ℚ)
  transactionCount : Nat
deriving DecidableEq, Repr

/-- `calculate_report_data`: group totals are accumulated into a dict in
first-occurrence order; `topCategory` is the first category of maximal total. -/
def calculate_report_data (expenses : List Expense) : ReportData :=
  if expenses.isEmpty then
    { totalSpent := 0, topCategory := none, categoryBreakdown := [],
      transactionCount := 0 }
  else
    let ct := (keysInOrder (expenses.map (·.category))).map
      (fun c => (c, catSum expenses c))
    { totalSpent := totalAmount expenses
      topCategory := (firstArgmax (·.2) ct).map (·.1)
      categoryBreakdown := ct
      transactionCount := expenses.length }

/-! ### Spec-side chronological week ordering (for comparison only)

The spec (and claim C1) describe the week keys as sorted *chronologically*.
The following definitions follow the spec's words — (calendar-year, ISO-week)
pairs ordered numerically — and exist only to be compared against the
implementation's lexicographic ordering of the unpadded key strings. -/

/-- The (calendar-year, ISO-week-number) pair of a record, as numbers. -/
def specWeekPair (r : Expense) : Nat × Nat :=
  (r.date.year, isoWeekNumber r.date.year r.date.month r.date.day)

/-- Chronological order on (year, week) pairs. -/
def pairLe (a b : Nat × Nat) : Bool :=
  decide (a.1 < b.1 ∨ (a.1 = b.1 ∧ a.2 ≤ b.2))

/-- The distinct week pairs of a record set, sorted chronologically (the
spec's "sort distinct week keys chronologically"). -/
def specSortedWeeks (rs : List Expense) : List (Nat × Nat) :=
  sortLe pairLe (keysInOrder (rs.map specWeekPair))

def specWeeklyTotal (rs : List Expense) (k : Nat × Nat) : ℚ :=
  totalAmount (rs.filter (fun r => specWeekPair r == k))

/-- The spec's "earlier" window: the chronologically first 2 weeks when at
least 4 distinct weeks exist, else the first 1. -/
def specEarlierWeeks (rs : List Expense) : List (Nat × Nat) :=
  let w := specSortedWeeks rs
  if 4 ≤ w.length then w.take 2 else w.take 1

def specRecentWeeks (rs : List Expense) : List (Nat × Nat) :=
  let w := specSortedWeeks rs
  if 2 ≤ w.length then w.drop (w.length - 2) else w.drop (w.length - 1)

def specAvgOver (rs : List Expense) (ws : List (Nat × Nat)) : ℚ :=
  ((ws.map (specWeeklyTotal rs)).sum) / (ws.length : ℚ)

def specEarlierAvg (rs : List Expense) : ℚ :=
  if 2 ≤ (specSortedWeeks rs).length then specAvgOver rs (specEarlierWeeks rs) else 0

def specRecentAvg (rs : List Expense) : ℚ :=
  if 2 ≤ (specSortedWeeks rs).length then specAvgOver rs (specRecentWeeks rs) else 0

/-- The trend classification the spec describes, over chronological windows. -/
def specTrendLabel (rs : List Expense) : String :=
  if 2 ≤ (specSortedWeeks rs).length then
    if specEarlierAvg rs * (11 / 10) < specRecentAvg rs then "increasing"
    else if specRecentAvg rs < specEarlierAvg rs * (9 / 10) then "decreasing"
    else "stable"
  else "insufficient_data"

/-! ### Concrete record sets used by the counterexamples and witnesses -/

/-- A fixed business date inside ISO week 20 of 2024 (Monday 2024-05-13). -/
def d0 : Timestamp := ⟨2024, 5, 13, 0⟩

/-- C1 failing input: 100 in ISO week 9 of 2024 (Fri 2024-03-01) followed by
200 in ISO week 10 (Mon 2024-03-04). -/
def exC1 : List Expense :=
  [⟨"u", 100, "Food", ⟨2024, 3, 1, 0⟩⟩, ⟨"u", 200, "Food", ⟨2024, 3, 4, 0⟩⟩]

/-- C2 example: weekly totals 100,100,100,200,200 over the five consecutive
ISO weeks 20-24 of 2024 (Mondays 2024-05-13 .. 2024-06-10). -/
def exC2 : List Expense :=
  [⟨"u", 100, "Food", ⟨2024, 5, 13, 0⟩⟩, ⟨"u", 100, "Food", ⟨2024, 5, 20, 0⟩⟩,
   ⟨"u", 100, "Food", ⟨2024, 5, 27, 0⟩⟩, ⟨"u", 200, "Food", ⟨2024, 6, 3, 0⟩⟩,
   ⟨"u", 200, "Food", ⟨2024, 6, 10, 0⟩⟩]

/-- C3 counterexample: group sums 0.004, 0.004 and 0.012 are rounded to 0, 0
and 0.01 before the percentages are taken, so the percentages come out as
0, 0 and 50. -/
def exC3 : List Expense :=
  [⟨"u", 4 / 1000, "A", d0⟩, ⟨"u", 4 / 1000, "B", d0⟩, ⟨"u", 12 / 1000, "C", d0⟩]

/-- C4 counterexample: a single record of 0.004 whose reported `total_spent`
is the rounded 0. -/
def exC4 : List Expense := [⟨"u", 1 / 250, "A", d0⟩]

/-- C5 counterexample data: one record of 60 on 2024-06-01. -/
def exC5 : List Expense := [⟨"u", 60, "Misc", ⟨2024, 6, 1, 0⟩⟩]

/-- The wall-clock instant used by the C5/C7/C9 examples: 2024-06-10 00:00. -/
def nowC5 : ℚ := Timestamp.toQ ⟨2024, 6, 10, 0⟩

/-- C7 example records: Food 350 (35% of total) and Rent 650. -/
def exC7 : List Expense :=
  [⟨"u", 350, "Food", ⟨2024, 5, 13, 0⟩⟩, ⟨"u", 650, "Rent", ⟨2024, 5, 13, 0⟩⟩]

/-- The warning/high suggestion claim C7 expects for "Food":
suggested_reduction = 350 × 0.175 = 61.25. -/
def foodWarn : Sugg :=
  { kind := "warning", category := some "Food", priority := "high",
    current_spending := some 350, suggested_reduction := some (6125 / 100) }

/-- C8 witness input: a malformed trends dict claiming an increasing trend but
missing the weekly-average keys, so the message interpolation raises. -/
def badTrends : TrendsDict := ⟨some "increasing", none, none⟩

def someStats : CatStats :=
  { total_spent := 100, transaction_count := 1, average_amount := 100,
    min_amount := 100, max_amount := 100, percentage_of_total := 100 }

/-- C9 witness data: six Food records on consecutive days. -/
def exC9 : List Expense :=
  [⟨"u", 10, "Food", ⟨2024, 6, 1, 0⟩⟩, ⟨"u", 20, "Food", ⟨2024, 6, 2, 0⟩⟩,
   ⟨"u", 30, "Food", ⟨2024, 6, 3, 0⟩⟩, ⟨"u", 40, "Food", ⟨2024, 6, 4, 0⟩⟩,
   ⟨"u", 50, "Food", ⟨2024, 6, 5, 0⟩⟩, ⟨"u", 60, "Food", ⟨2024, 6, 6, 0⟩⟩]

/-- C10 witness data: an expense inside February 2024, one at the exact first
instant of March 2024, and one in January 2024. -/
def exC10 : List Expense :=
  [⟨"u", 10, "Food", ⟨2024, 2, 15, 0⟩⟩, ⟨"u", 20, "Food", ⟨2024, 3, 1, 0⟩⟩,
   ⟨"u", 30, "Food", ⟨2024, 1, 31, 0⟩⟩]


/-! ## General lemmas about the embedded list operations -/


theorem mem_insertLe {α : Type} (le : α → α → Bool) (x : α) (l : List α) (a : α) :
    a ∈ insertLe le x l ↔ a = x ∨ a ∈ l := by
  induction l with
  | nil => simp [insertLe]
  | cons y ys ih =>
    by_cases h : le x y = true
    · simp [insertLe, h, List.mem_cons]
    · simp only [insertLe, h, if_neg, Bool.not_eq_true, if_false, List.mem_cons, ih]
      tauto

theorem perm_insertLe {α : Type} (le : α → α → Bool) (x : α) (l : List α) :
    List.Perm (insertLe le x l) (x :: l) := by
  induction l with
  | nil => simp [insertLe]
  | cons y ys ih =>
    by_cases h : le x y = true
    · simp [insertLe, h]
    · rw [insertLe, if_neg h]
      exact List.Perm.trans (List.Perm.cons y ih) (List.Perm.swap x y ys)

theorem perm_sortLe {α : Type} (le : α → α → Bool) (l : List α) :
    List.Perm (sortLe le l) l := by
  induction l with
  | nil => simp [sortLe]
  | cons x xs ih =>
    exact List.Perm.trans (perm_insertLe le x (sortLe le xs)) (List.Perm.cons x ih)

theorem mem_sortLe {α : Type} (le : α → α → Bool) (l : List α) (a : α) :
    a ∈ sortLe le l ↔ a ∈ l :=
  (perm_sortLe le l).mem_iff

theorem length_sortLe {α : Type} (le : α → α → Bool) (l : List α) :
    (sortLe le l).length = l.length :=
  (perm_sortLe le l).length_eq

theorem pairwise_insertLe {α : Type} (le : α → α → Bool)
    (htot : ∀ a b, le a b = true ∨ le b a = true)
    (htrans : ∀ a b c, le a b = true → le b c = true → le a c = true)
    (x : α) (l : List α) (hl : l.Pairwise (fun a b => le a b = true)) :
    (insertLe le x l).Pairwise (fun a b => le a b = true) := by
  induction l with
  | nil => simp [insertLe]
  | cons y ys ih =>
    rcases List.pairwise_cons.mp hl with ⟨hy, hys⟩
    by_cases h : le x y = true
    · rw [insertLe, if_pos h]
      refine List.pairwise_cons.mpr ⟨?_, hl⟩
      intro b hb
      rcases List.mem_cons.mp hb with rfl | hb
      · exact h
      · exact htrans x y b h (hy b hb)
    · rw [insertLe, if_neg h]
      refine List.pairwise_cons.mpr ⟨?_, ih hys⟩
      intro b hb
      rcases (mem_insertLe le x ys b).mp hb with rfl | hb
      · rcases htot y b with hyb | hby
        · exact hyb
        · exact absurd hby h
      · exact hy b hb

theorem pairwise_sortLe {α : Type} (le : α → α → Bool)
    (htot : ∀ a b, le a b = true ∨ le b a = true)
    (htrans : ∀ a b c, le a b = true → le b c = true → le a c = true)
    (l : List α) :
    (sortLe le l).Pairwise (fun a b => le a b = true) := by
  induction l with
  | nil => simp [sortLe]
  | cons x xs ih => exact pairwise_insertLe le htot htrans x (sortLe le xs) ih

theorem insertLe_front {α : Type} (le : α → α → Bool) (x : α) (l : List α)
    (h : ∀ y, le x y = true) : insertLe le x l = x :: l := by
  cases l with
  | nil => rfl
  | cons y ys => rw [insertLe, if_pos (h y)]

theorem filter_insertLe_of_neg {α : Type} (le : α → α → Bool) (P : α → Bool)
    (x : α) (l : List α) (hx : P x = false) :
    (insertLe le x l).filter P = l.filter P := by
  induction l with
  | nil => simp [insertLe, hx]
  | cons y ys ih =>
    by_cases h : le x y = true
    · simp [insertLe, h, List.filter_cons, hx]
    · rw [insertLe, if_neg h, List.filter_cons, List.filter_cons]
      cases hPy : P y <;> simp [ih]



theorem mem_foldl_insertKey {α : Type} [DecidableEq α] (l : List α) (acc : List α) (a : α) :
    a ∈ l.foldl insertKey acc ↔ a ∈ acc ∨ a ∈ l := by
  induction l generalizing acc with
  | nil => simp
  | cons x xs ih =>
    rw [List.foldl_cons, ih]
    unfold insertKey
    by_cases h : x ∈ acc
    · rw [if_pos h]
      simp only [List.mem_cons]
      constructor
      · tauto
      · rintro (ha | rfl | ha) <;> tauto
    · rw [if_neg h]
      simp only [List.mem_append, List.mem_cons, List.mem_singleton]
      tauto

theorem mem_keysInOrder {α : Type} [DecidableEq α] (l : List α) (a : α) :
    a ∈ keysInOrder l ↔ a ∈ l := by
  unfold keysInOrder
  rw [mem_foldl_insertKey]
  simp

theorem nodup_foldl_insertKey {α : Type} [DecidableEq α] (l : List α) (acc : List α)
    (h : acc.Nodup) : (l.foldl insertKey acc).Nodup := by
  induction l generalizing acc with
  | nil => simpa
  | cons x xs ih =>
    rw [List.foldl_cons]
    apply ih
    unfold insertKey
    by_cases hx : x ∈ acc
    · rwa [if_pos hx]
    · rw [if_neg hx]
      simp [List.nodup_append, h, hx]

theorem nodup_keysInOrder {α : Type} [DecidableEq α] (l : List α) :
    (keysInOrder l).Nodup :=
  nodup_foldl_insertKey l [] List.nodup_nil

theorem totalAmount_filter_split (rs : List Expense) (p : Expense → Bool) :
    totalAmount rs
      = totalAmount (rs.filter p) + totalAmount (rs.filter (fun r => !(p r))) := by
  induction rs with
  | nil => simp [totalAmount]
  | cons r rest ih =>
    unfold totalAmount at *
    cases h : p r <;> simp [List.filter_cons, h, ih] <;> ring

theorem catSum_filter_ne (rs : List Expense) (c cQ : String) (h : cQ ≠ c) :
    catSum (rs.filter (fun r => !(r.category == c))) cQ = catSum rs cQ := by
  unfold catSum catRecords totalAmount
  rw [List.filter_filter]
  have hf : List.filter (fun a => a.category == cQ && !(a.category == c)) rs
      = List.filter (fun r => r.category == cQ) rs := by
    apply List.filter_congr
    intro r _
    cases hq : r.category == cQ
    · simp
    · have hrc : r.category = cQ := by simpa using hq
      have hne : (r.category == c) = false := by
        simp only [beq_eq_false_iff_ne, ne_eq, hrc]
        exact h
      simp [hne]
  rw [hf]

theorem sum_catSum (cats : List String) (rs : List Expense)
    (hnd : cats.Nodup) (hcov : ∀ r ∈ rs, r.category ∈ cats) :
    (cats.map (catSum rs)).sum = totalAmount rs := by
  induction cats generalizing rs with
  | nil =>
    cases rs with
    | nil => simp [totalAmount]
    | cons r rest => exact absurd (hcov r (by simp)) (by simp)
  | cons c cs ih =>
    rcases List.nodup_cons.mp hnd with ⟨hc, hcs⟩
    have hsplit := totalAmount_filter_split rs (fun r => r.category == c)
    have h1 : totalAmount (rs.filter (fun r => r.category == c)) = catSum rs c := rfl
    have hmap : (cs.map (catSum rs)).sum
        = (cs.map (catSum (rs.filter (fun r => !(r.category == c))))).sum := by
      congr 1
      refine List.map_congr_left ?_
      intro cQ hcQ
      exact (catSum_filter_ne rs c cQ (fun hEq => hc (hEq ▸ hcQ))).symm
    have hcov2 : ∀ r ∈ rs.filter (fun r => !(r.category == c)), r.category ∈ cs := by
      intro r hr
      rcases List.mem_filter.mp hr with ⟨hrs, hne⟩
      rcases List.mem_cons.mp (hcov r hrs) with hEq | hmem
      · exfalso
        simp only [Bool.not_eq_true', beq_eq_false_iff_ne, ne_eq] at hne
        exact hne hEq
      · exact hmem
    rw [List.map_cons, List.sum_cons, hmap, ih _ hcs hcov2, hsplit, h1]

theorem sum_map_sub {α : Type} (l : List α) (f g : α → ℚ) :
    (l.map (fun a => f a - g a)).sum = (l.map f).sum - (l.map g).sum := by
  induction l with
  | nil => simp
  | cons x xs ih => simp [ih]; ring

theorem abs_sum_le {α : Type} (l : List α) (f : α → ℚ) (b : ℚ)
    (h : ∀ a ∈ l, |f a| ≤ b) :
    |(l.map f).sum| ≤ (l.length : ℚ) * b := by
  induction l with
  | nil => simp
  | cons x xs ih =>
    simp only [List.map_cons, List.sum_cons, List.length_cons]
    calc |f x + (xs.map f).sum| ≤ |f x| + |(xs.map f).sum| := abs_add _ _
      _ ≤ b + (xs.length : ℚ) * b :=
        add_le_add (h x (List.mem_cons_self x xs)) (ih fun a ha => h a (List.mem_cons_of_mem x ha))
      _ = ((xs.length : ℚ) + 1) * b := by ring
      _ = ((xs.length + 1 : ℕ) : ℚ) * b := by push_cast; ring

theorem abs_round2_sub_le (q : ℚ) : |round2 q - q| ≤ 1 / 200 := by
  unfold round2
  have h := abs_sub_round (q * 100)
  have heq : (round (q * 100) : ℚ) / 100 - q = ((round (q * 100) : ℚ) - q * 100) / 100 := by
    ring
  rw [heq, abs_div]
  have h100 : |(100 : ℚ)| = 100 := by norm_num
  rw [h100]
  rw [abs_sub_comm] at h
  linarith



theorem charListLt_asymm (as bs : List Char) (h : charListLt as bs = true) :
    charListLt bs as = false := by
  induction as generalizing bs with
  | nil =>
    cases bs with
    | nil => simp [charListLt] at h
    | cons b bs => simp [charListLt]
  | cons a as ih =>
    cases bs with
    | nil => simp [charListLt] at h
    | cons b bs =>
      rw [charListLt] at h ⊢
      by_cases hab : a.toNat < b.toNat
      · rw [if_neg (by omega), if_pos hab]
      · by_cases hba : b.toNat < a.toNat
        · rw [if_neg hab, if_pos hba] at h
          exact absurd h (by simp)
        · rw [if_neg hab, if_neg hba] at h
          rw [if_neg hba, if_neg hab]
          exact ih bs h

theorem charListLt_linear (cs as bs : List Char) (h : charListLt cs as = true) :
    charListLt cs bs = true ∨ charListLt bs as = true := by
  induction cs generalizing as bs with
  | nil =>
    cases as with
    | nil => simp [charListLt] at h
    | cons a as =>
      cases bs with
      | nil => right; simp [charListLt]
      | cons b bs => left; simp [charListLt]
  | cons c cs ih =>
    cases as with
    | nil => simp [charListLt] at h
    | cons a as =>
      cases bs with
      | nil => right; simp [charListLt]
      | cons b bs =>
        rw [charListLt] at h ⊢
        rw [charListLt]
        by_cases hca : c.toNat < a.toNat
        · by_cases hcb : c.toNat < b.toNat
          · left; rw [if_pos hcb]
          · right; rw [if_pos (by omega : b.toNat < a.toNat)]
        · by_cases hac : a.toNat < c.toNat
          · rw [if_neg hca, if_pos hac] at h
            exact absurd h (by simp)
          · rw [if_neg hca, if_neg hac] at h
            by_cases hcb : c.toNat < b.toNat
            · left; rw [if_pos hcb]
            · by_cases hbc : b.toNat < c.toNat
              · right; rw [if_pos (by omega : b.toNat < a.toNat)]
              · rcases ih as bs h with h1 | h1
                · left; rw [if_neg hcb, if_neg hbc]; exact h1
                · right
                  rw [if_neg (by omega : ¬ b.toNat < a.toNat),
                    if_neg (by omega : ¬ a.toNat < b.toNat)]
                  exact h1

theorem strLe_total (a b : String) : strLe a b = true ∨ strLe b a = true := by
  unfold strLe
  by_cases h : strLt b a = true
  · right
    have := charListLt_asymm b.data a.data h
    unfold strLt
    simp [this]
  · left
    simp [h]

theorem strLe_trans (a b c : String) (h1 : strLe a b = true) (h2 : strLe b c = true) :
    strLe a c = true := by
  unfold strLe strLt at *
  simp only [Bool.not_eq_true'] at h1 h2 ⊢
  by_contra hne
  have hca : charListLt c.data a.data = true := by
    cases h : charListLt c.data a.data
    · exact absurd h hne
    · rfl
  rcases charListLt_linear c.data a.data b.data hca with h3 | h3
  · rw [h3] at h2; exact absurd h2 (by simp)
  · rw [h3] at h1; exact absurd h1 (by simp)


/-! ## Claim theorems -/
/-- C1: in the trend computation the distinct `year-Wweek` key strings are
sorted lexicographically, not chronologically.  At the failing input — 100
spent in ISO week 9 of 2024 and 200 in week 10 — the unpadded string
"2024-W10" sorts before "2024-W9", so the code's "earlier" window is week 10
(average 200) and the trend comes out "decreasing", while the chronological
windows described by the claim give an earlier average of 100 (week 9) and
the trend "increasing". -/
theorem C1_weekly_sort_not_chronological :
    sortedWeeks exC1 = ["2024-W10", "2024-W9"]
    ∧ weeklyTotal exC1 "2024-W9" = 100 ∧ weeklyTotal exC1 "2024-W10" = 200
    ∧ earlierWeeks exC1 = ["2024-W10"] ∧ earlierAvgRaw exC1 = 200
    ∧ trendLabel exC1 = "decreasing"
    ∧ specSortedWeeks exC1 = [(2024, 9), (2024, 10)]
    ∧ specEarlierAvg exC1 = 100 ∧ specTrendLabel exC1 = "increasing"
    ∧ earlierAvgRaw exC1 ≠ specEarlierAvg exC1 := by
  with_unfolding_all decide

/-- C4 counterexample: for the single record of amount 0.004 in category "A",
the reported `total_spent` is the 2-decimal rounding 0, not the actual group
sum 0.004. -/
theorem C4_counterexample :
    ((analyze_spending_by_category exC4).lookup "A").map (·.total_spent) = some 0
    ∧ catSum exC4 "A" = 1 / 250 ∧ (0 : ℚ) ≠ 1 / 250 := by
  with_unfolding_all decide

theorem lookup_map_self (l : List String) (f : String → CatStats) (c : String)
    (hnd : l.Nodup) (hc : c ∈ l) :
    (l.map (fun k => (k, f k))).lookup c = some (f c) := by
  induction l with
  | nil => simp at hc
  | cons k ks ih =>
    rcases List.nodup_cons.mp hnd with ⟨hk, hks⟩
    rcases List.mem_cons.mp hc with rfl | hc2
    · simp [List.lookup]
    · have hck : (c == k) = false := by
        simp only [beq_eq_false_iff_ne, ne_eq]
        rintro rfl
        exact hk hc2
      simp [List.lookup, hck, ih hks hc2]

/-- C4 (amended): for every record set and every category `c` present in it,
the category analysis maps `c` to statistics whose `total_spent` is the
2-decimal rounding of the sum of the amounts of exactly the records whose
category equals `c` (exact grouping, case-sensitive), and whose percentage
divides by the overall total computed once over all input records. -/
theorem C4_total_spent_is_rounded_group_sum (rs : List Expense) (c : String)
    (hc : c ∈ rs.map (·.category)) :
    (analyze_spending_by_category rs).lookup c
        = some (catStatsFor rs (totalAmount rs) c)
    ∧ (catStatsFor rs (totalAmount rs) c).total_spent = round2 (catSum rs c)
    ∧ (catStatsFor rs (totalAmount rs) c).percentage_of_total
        = (if 0 < totalAmount rs
            then round2 (round2 (catSum rs c) / totalAmount rs * 100) else 0) := by
  refine ⟨?_, rfl, rfl⟩
  unfold analyze_spending_by_category
  apply lookup_map_self
  · exact ((perm_sortLe strLe _).nodup_iff).mpr (nodup_keysInOrder _)
  · exact (mem_sortLe strLe _ c).mpr ((mem_keysInOrder _ c).mpr hc)

/-- C4 witness: the amended statement evaluated at the counterexample input. -/
theorem C4_witness :
    ("A" ∈ exC4.map (·.category))
    ∧ (analyze_spending_by_category exC4).lookup "A"
        = some (catStatsFor exC4 (totalAmount exC4) "A") :=
  ⟨by decide, (C4_total_spent_is_rounded_group_sum exC4 "A" (by decide)).1⟩

/-- C5 counterexample: with the trends endpoint's days parameter set to 60 and
one record of amount 60 inside that window, the reported `daily_average` is
60 / 30 = 2, not the claimed 60 / 60 = 1. -/
theorem C5_counterexample :
    (trendsEndpoint 60 nowC5 exC5 "u").map (·.daily_average) = some 2
    ∧ round2 (60 / 60) = 1 ∧ (2 : ℚ) ≠ 1 := by
  with_unfolding_all decide

/-- C5 (amended): the trend report's `daily_average` equals the sum of all
loaded record amounts divided by the constant 30 and rounded to 2 decimals,
regardless of the `days` parameter, which only selects the loading window. -/
theorem C5_daily_average_divides_by_30 (days : Nat) (now : ℚ) (db : List Expense)
    (u : String)
    (h : find_by_user_id db u (some (now - (days : ℚ))) none none ≠ []) :
    (trendsEndpoint days now db u).map (·.daily_average)
      = some (round2
          (totalAmount (find_by_user_id db u (some (now - (days : ℚ))) none none) / 30)) := by
  unfold trendsEndpoint get_spending_trends
  have hne : (find_by_user_id db u (some (now - (days : ℚ))) none none).isEmpty = false := by
    cases hE : (find_by_user_id db u (some (now - (days : ℚ))) none none).isEmpty
    · rfl
    · exact absurd (List.isEmpty_iff.mp hE) h
  simp [hne]

/-- C5 witness: the amended statement at the counterexample data with the
default window of 30 days. -/
theorem C5_witness :
    (find_by_user_id exC5 "u" (some (nowC5 - (30 : ℕ))) none none ≠ [])
    ∧ (trendsEndpoint 30 nowC5 exC5 "u").map (·.daily_average)
        = some (round2
            (totalAmount (find_by_user_id exC5 "u" (some (nowC5 - (30 : ℕ))) none none) / 30)) :=
  ⟨by with_unfolding_all decide,
    C5_daily_average_divides_by_30 30 nowC5 exC5 "u" (by with_unfolding_all decide)⟩

/-- C6: whenever the 30-day loader returns no records, the comprehensive
analysis is the defined empty state: totals and count 0, empty category
analysis and trends, exactly one info/low suggestion, period "30 days" and no
top category. -/
theorem C6_empty_state (now : ℚ) (db : List Expense) (u : String)
    (h : find_by_user_id db u (some (now - 30)) none none = []) :
    get_comprehensive_analysis now db u
      = { total_expenses := 0, expense_count := 0, category_analysis := [],
          trends := none, suggestions := [{ kind := "info", priority := "low" }],
          period := "30 days", average_daily_spending := none,
          top_category := none } := by
  unfold get_comprehensive_analysis
  simp [h, infoSugg]

/-- C6 witness: the empty database. -/
theorem C6_witness :
    (find_by_user_id [] "u" ((0 : ℚ) - 30 |> some) none none = [])
    ∧ get_comprehensive_analysis 0 [] "u"
      = { total_expenses := 0, expense_count := 0, category_analysis := [],
          trends := none, suggestions := [{ kind := "info", priority := "low" }],
          period := "30 days", average_daily_spending := none,
          top_category := none } :=
  ⟨rfl, C6_empty_state 0 [] "u" rfl⟩

/-- C8: the suggestion engine never propagates an internal failure: whenever
the rule-cascade body raises (modelled by `Except.error`), the engine returns
exactly the single error/low fallback suggestion. -/
theorem C8_error_fallback (ca : List (String × CatStats)) (tr : TrendsDict)
    (total : ℚ) (hne : ca ≠ []) (hfail : suggBody ca tr total = Except.error ()) :
    generate_smart_suggestions ca tr total = [{ kind := "error", priority := "low" }] := by
  unfold generate_smart_suggestions
  have hE : ca.isEmpty = false := by
    cases h : ca.isEmpty
    · rfl
    · exact absurd (List.isEmpty_iff.mp h) hne
  simp [hE, hfail, errorSugg]

/-- C8 witness: a trends dict announcing an increasing trend without the
weekly-average keys makes the body raise a key error; the engine returns the
fallback. -/
theorem C8_witness :
    ([("Food", someStats)] ≠ ([] : List (String × CatStats)))
    ∧ suggBody [("Food", someStats)] badTrends 100 = Except.error ()
    ∧ generate_smart_suggestions [("Food", someStats)] badTrends 100
        = [{ kind := "error", priority := "low" }] :=
  ⟨by simp, by with_unfolding_all rfl,
    C8_error_fallback [("Food", someStats)] badTrends 100 (by simp)
      (by with_unfolding_all rfl)⟩

/-- C10: the monthly report aggregates exactly the user's expenses with
timestamp in the half-open interval from the first instant of month `m` to
the first instant of the following month (December rolling over to January of
the next year); an expense at exactly the following month's first instant is
excluded, and the reported total is the sum over exactly that window. -/
theorem C10_month_window (db : List Expense) (u : String) (m y : Nat)
    (_hm1 : 1 ≤ m) (_hm2 : m ≤ 12) :
    (∀ e, e ∈ get_monthly_expenses db u m y ↔
        e ∈ db ∧ e.user_id = u ∧ monthStartQ y m ≤ e.date.toQ
          ∧ e.date.toQ < (if m = 12 then monthStartQ (y + 1) 1 else monthStartQ y (m + 1)))
    ∧ (∀ e ∈ db,
        e.date.toQ = (if m = 12 then monthStartQ (y + 1) 1 else monthStartQ y (m + 1))
        → e ∉ get_monthly_expenses db u m y)
    ∧ (calculate_report_data (get_monthly_expenses db u m y)).totalSpent
        = totalAmount (get_monthly_expenses db u m y) := by
  have hend : monthEndQ y m
      = (if m = 12 then monthStartQ (y + 1) 1 else monthStartQ y (m + 1)) := by
    unfold monthEndQ
    by_cases h : m = 12 <;> simp [h]
  have hmem : ∀ e, e ∈ get_monthly_expenses db u m y ↔
      e ∈ db ∧ e.user_id = u ∧ monthStartQ y m ≤ e.date.toQ
        ∧ e.date.toQ < (if m = 12 then monthStartQ (y + 1) 1 else monthStartQ y (m + 1)) := by
    intro e
    unfold get_monthly_expenses
    rw [List.mem_filter, ← hend]
    simp only [Bool.and_eq_true, beq_iff_eq, decide_eq_true_eq]
    tauto
  refine ⟨hmem, ?_, ?_⟩
  · intro e hdb heq hmemE
    have := ((hmem e).mp hmemE).2.2.2
    rw [heq] at this
    exact lt_irrefl _ this
  · unfold calculate_report_data
    cases hE : (get_monthly_expenses db u m y).isEmpty
    · simp [hE]
    · simp [hE, List.isEmpty_iff.mp hE, totalAmount]

theorem toQ_midnight (y m d : Nat) :
    Timestamp.toQ ⟨y, m, d, 0⟩ = (rataDie y m d : ℚ) := by
  unfold Timestamp.toQ
  simp

/-- C10 witness: February 2024 — an expense on 2024-02-15 is included and one
dated exactly at the first instant of 2024-03-01 is excluded. -/
theorem C10_witness :
    ((⟨"u", 10, "Food", ⟨2024, 2, 15, 0⟩⟩ : Expense) ∈ get_monthly_expenses exC10 "u" 2 2024)
    ∧ ((⟨"u", 20, "Food", ⟨2024, 3, 1, 0⟩⟩ : Expense) ∉ get_monthly_expenses exC10 "u" 2 2024) :=
  ⟨((C10_month_window exC10 "u" 2 2024 (by norm_num) (by norm_num)).1 _).mpr
      ⟨by simp [exC10], rfl,
        by
          show monthStartQ 2024 2 ≤ Timestamp.toQ ⟨2024, 2, 15, 0⟩
          rw [toQ_midnight]
          exact_mod_cast Nat.cast_le.mpr (by decide : rataDie 2024 2 1 ≤ rataDie 2024 2 15),
        by
          show Timestamp.toQ ⟨2024, 2, 15, 0⟩ <
            (if (2 : Nat) = 12 then monthStartQ (2024 + 1) 1 else monthStartQ 2024 (2 + 1))
          rw [if_neg (by norm_num), toQ_midnight]
          exact_mod_cast Nat.cast_lt.mpr (by decide : rataDie 2024 2 15 < rataDie 2024 3 1)⟩,
    (C10_month_window exC10 "u" 2 2024 (by norm_num) (by norm_num)).2.1 _
      (by simp [exC10])
      (by
        show Timestamp.toQ ⟨2024, 3, 1, 0⟩ =
          (if (2 : Nat) = 12 then monthStartQ (2024 + 1) 1 else monthStartQ 2024 (2 + 1))
        rw [if_neg (by norm_num), toQ_midnight]
        rfl)⟩



theorem dateDescLe_total (a b : Expense) : dateDescLe a b = true ∨ dateDescLe b a = true := by
  unfold dateDescLe
  rcases le_total b.date.toQ a.date.toQ with h | h
  · left; exact decide_eq_true h
  · right; exact decide_eq_true h

theorem dateDescLe_trans (a b c : Expense) (h1 : dateDescLe a b = true)
    (h2 : dateDescLe b c = true) : dateDescLe a c = true := by
  unfold dateDescLe at *
  rw [decide_eq_true_eq] at *
  exact le_trans h2 h1

/-- C9: whenever the 30-day category slice holds at least 5 records, the
insight's `recent_transactions` is exactly the last 5 elements of the
newest-first list the loader returns, i.e. (since that list is sorted
descending by timestamp) the 5 chronologically oldest records of the slice,
in that list's order. -/
theorem C9_recent_transactions (now : ℚ) (db : List Expense) (u c : String)
    (h5 : 5 ≤ (find_by_user_id db u (some (now - 30)) none (some c)).length) :
    ∃ ins, get_category_insights now db u c = some ins
      ∧ ins.recent_transactions
          = (find_by_user_id db u (some (now - 30)) none (some c)).drop
              ((find_by_user_id db u (some (now - 30)) none (some c)).length - 5)
      ∧ ins.recent_transactions.length = 5
      ∧ (find_by_user_id db u (some (now - 30)) none (some c)).Pairwise
          (fun a b => b.date.toQ ≤ a.date.toQ)
      ∧ (∀ x ∈ (find_by_user_id db u (some (now - 30)) none (some c)).take
            ((find_by_user_id db u (some (now - 30)) none (some c)).length - 5),
          ∀ z ∈ (find_by_user_id db u (some (now - 30)) none (some c)).drop
            ((find_by_user_id db u (some (now - 30)) none (some c)).length - 5),
          z.date.toQ ≤ x.date.toQ) := by
  have hne : (find_by_user_id db u (some (now - 30)) none (some c)).isEmpty = false := by
    cases hE : (find_by_user_id db u (some (now - 30)) none (some c)).isEmpty
    · rfl
    · rw [List.isEmpty_iff.mp hE] at h5
      simp at h5
  have hpw : (find_by_user_id db u (some (now - 30)) none (some c)).Pairwise
      (fun a b => b.date.toQ ≤ a.date.toQ) := by
    have h1 : (find_by_user_id db u (some (now - 30)) none (some c)).Pairwise
        (fun a b => dateDescLe a b = true) := by
      unfold find_by_user_id
      exact pairwise_sortLe dateDescLe dateDescLe_total dateDescLe_trans _
    exact h1.imp (fun h => by
      unfold dateDescLe at h
      exact of_decide_eq_true h)
  refine ⟨insightFor c (find_by_user_id db u (some (now - 30)) none (some c)), ?_, rfl, ?_, hpw, ?_⟩
  · unfold get_category_insights
    simp [hne]
  · show (List.drop _ _).length = 5
    rw [List.length_drop]
    omega
  · have hsp : ((find_by_user_id db u (some (now - 30)) none (some c)).take
          ((find_by_user_id db u (some (now - 30)) none (some c)).length - 5)
        ++ (find_by_user_id db u (some (now - 30)) none (some c)).drop
          ((find_by_user_id db u (some (now - 30)) none (some c)).length - 5)).Pairwise
        (fun a b => b.date.toQ ≤ a.date.toQ) := by
      rw [List.take_append_drop]
      exact hpw
    exact fun x hx z hz => (List.pairwise_append.mp hsp).2.2 x hx z hz

/-- C9 witness: six Food records on 2024-06-01..06 seen at 2024-06-10. -/
theorem C9_witness :
    5 ≤ (find_by_user_id exC9 "u" (some (nowC5 - 30)) none (some "Food")).length
    ∧ (∃ ins, get_category_insights nowC5 exC9 "u" "Food" = some ins
        ∧ ins.recent_transactions
            = (find_by_user_id exC9 "u" (some (nowC5 - 30)) none (some "Food")).drop
                ((find_by_user_id exC9 "u" (some (nowC5 - 30)) none (some "Food")).length - 5)
        ∧ ins.recent_transactions.length = 5
        ∧ (find_by_user_id exC9 "u" (some (nowC5 - 30)) none (some "Food")).Pairwise
            (fun a b => b.date.toQ ≤ a.date.toQ)
        ∧ (∀ x ∈ (find_by_user_id exC9 "u" (some (nowC5 - 30)) none (some "Food")).take
              ((find_by_user_id exC9 "u" (some (nowC5 - 30)) none (some "Food")).length - 5),
            ∀ z ∈ (find_by_user_id exC9 "u" (some (nowC5 - 30)) none (some "Food")).drop
              ((find_by_user_id exC9 "u" (some (nowC5 - 30)) none (some "Food")).length - 5),
            z.date.toQ ≤ x.date.toQ)) :=
  ⟨by with_unfolding_all decide,
    C9_recent_transactions nowC5 exC9 "u" "Food" (by with_unfolding_all decide)⟩



theorem weeklyTotal_pos (rs : List Expense) (hpos : ∀ r ∈ rs, 0 < r.amount)
    (k : String) (hk : k ∈ sortedWeeks rs) : 0 < weeklyTotal rs k := by
  have hmem : k ∈ rs.map (fun r => yearWeekKey r.date) :=
    (mem_keysInOrder _ k).mp ((mem_sortLe strLe _ k).mp hk)
  rcases List.mem_map.mp hmem with ⟨r, hr, hkey⟩
  unfold weeklyTotal weekKeyRecords totalAmount
  apply List.sum_pos
  · intro x hx
    rcases List.mem_map.mp hx with ⟨e, he, rfl⟩
    exact hpos e (List.mem_filter.mp he).1
  · have hrf : r ∈ rs.filter (fun e => yearWeekKey e.date == k) :=
      List.mem_filter.mpr ⟨hr, by simp [hkey]⟩
    intro hEq
    rw [List.map_eq_nil_iff] at hEq
    rw [hEq] at hrf
    simp at hrf

theorem avgOver_pos (rs : List Expense) (ws : List String) (hne : ws ≠ [])
    (hpos : ∀ k ∈ ws, 0 < weeklyTotal rs k) : 0 < avgOver rs ws := by
  unfold avgOver
  apply div_pos
  · apply List.sum_pos
    · intro x hx
      rcases List.mem_map.mp hx with ⟨k, hk, rfl⟩
      exact hpos k hk
    · intro hEq
      rw [List.map_eq_nil_iff] at hEq
      exact hne hEq
  · exact_mod_cast List.length_pos.mpr hne

theorem earlierWeeks_subset (rs : List Expense) :
    ∀ k ∈ earlierWeeks rs, k ∈ sortedWeeks rs := by
  intro k hk
  unfold earlierWeeks at hk
  by_cases h4 : 4 ≤ (sortedWeeks rs).length
  · rw [if_pos h4] at hk
    exact List.take_subset _ _ hk
  · rw [if_neg h4] at hk
    exact List.take_subset _ _ hk

theorem earlierWeeks_ne_nil (rs : List Expense)
    (h2 : 2 ≤ (sortedWeeks rs).length) : earlierWeeks rs ≠ [] := by
  unfold earlierWeeks
  by_cases h4 : 4 ≤ (sortedWeeks rs).length
  · rw [if_pos h4]
    apply List.ne_nil_of_length_pos
    rw [List.length_take]
    omega
  · rw [if_neg h4]
    apply List.ne_nil_of_length_pos
    rw [List.length_take]
    omega

theorem earlierAvgRaw_pos (rs : List Expense) (hpos : ∀ r ∈ rs, 0 < r.amount)
    (h2 : 2 ≤ (sortedWeeks rs).length) : 0 < earlierAvgRaw rs := by
  unfold earlierAvgRaw
  rw [if_pos h2]
  exact avgOver_pos rs _ (earlierWeeks_ne_nil rs h2)
    (fun k hk => weeklyTotal_pos rs hpos k (earlierWeeks_subset rs k hk))

/-- C2: for positive-amount record sets, fewer than 2 distinct weeks gives
label "insufficient_data" with both averages 0; with at least 2 distinct
weeks the averages are the arithmetic means of the weekly totals of the two
windows and the label is classified by the 10% band around the earlier
average; and the concrete weekly totals 100,100,100,200,200 over the five
consecutive ISO weeks 20-24 of 2024 classify as "increasing" with
recent average 200 and earlier average 100. -/
theorem C2_trend_classification :
    (∀ rs : List Expense, (∀ r ∈ rs, 0 < r.amount) →
      ((sortedWeeks rs).length < 2 →
        trendLabel rs = "insufficient_data"
        ∧ recentAvgRaw rs = 0 ∧ earlierAvgRaw rs = 0)
      ∧ (2 ≤ (sortedWeeks rs).length →
        recentAvgRaw rs = avgOver rs (recentWeeks rs)
        ∧ earlierAvgRaw rs = avgOver rs (earlierWeeks rs)
        ∧ (trendLabel rs = "increasing" ↔ earlierAvgRaw rs * (11 / 10) < recentAvgRaw rs)
        ∧ (trendLabel rs = "decreasing" ↔ recentAvgRaw rs < earlierAvgRaw rs * (9 / 10))
        ∧ (trendLabel rs = "stable" ↔
            ¬(earlierAvgRaw rs * (11 / 10) < recentAvgRaw rs)
            ∧ ¬(recentAvgRaw rs < earlierAvgRaw rs * (9 / 10)))))
    ∧ (trendLabel exC2 = "increasing"
        ∧ recentAvgRaw exC2 = 200 ∧ earlierAvgRaw exC2 = 100
        ∧ sortedWeeks exC2 = ["2024-W20", "2024-W21", "2024-W22", "2024-W23", "2024-W24"]) := by
  constructor
  · intro rs hpos
    constructor
    · intro hlt
      have h2 : ¬ 2 ≤ (sortedWeeks rs).length := by omega
      unfold trendLabel recentAvgRaw earlierAvgRaw
      rw [if_neg h2, if_neg h2, if_neg h2]
      exact ⟨rfl, rfl, rfl⟩
    · intro h2
      have hepos := earlierAvgRaw_pos rs hpos h2
      refine ⟨by unfold recentAvgRaw; rw [if_pos h2],
        by unfold earlierAvgRaw; rw [if_pos h2], ?_, ?_, ?_⟩
      · unfold trendLabel
        rw [if_pos h2]
        by_cases hA : earlierAvgRaw rs * (11 / 10) < recentAvgRaw rs
        · simp [hA]
        · rw [if_neg hA]
          by_cases hB : recentAvgRaw rs < earlierAvgRaw rs * (9 / 10) <;> simp [hA, hB]
      · unfold trendLabel
        rw [if_pos h2]
        by_cases hA : earlierAvgRaw rs * (11 / 10) < recentAvgRaw rs
        · have hnB : ¬ recentAvgRaw rs < earlierAvgRaw rs * (9 / 10) := by
            intro hB
            nlinarith
          simp [hA, hnB]
        · rw [if_neg hA]
          by_cases hB : recentAvgRaw rs < earlierAvgRaw rs * (9 / 10) <;> simp [hA, hB]
      · unfold trendLabel
        rw [if_pos h2]
        by_cases hA : earlierAvgRaw rs * (11 / 10) < recentAvgRaw rs
        · simp [hA]
        · rw [if_neg hA]
          by_cases hB : recentAvgRaw rs < earlierAvgRaw rs * (9 / 10) <;> simp [hA, hB]
  · with_unfolding_all decide

/-- C2 witness: the classification facts applied at the concrete
five-week record set. -/
theorem C2_witness :
    (∀ r ∈ exC2, 0 < r.amount) ∧ 2 ≤ (sortedWeeks exC2).length
    ∧ (trendLabel exC2 = "increasing"
        ↔ earlierAvgRaw exC2 * (11 / 10) < recentAvgRaw exC2) :=
  ⟨by with_unfolding_all decide, by with_unfolding_all decide,
    (((C2_trend_classification.1 exC2 (by with_unfolding_all decide)).2
      (by with_unfolding_all decide)).2.2).1⟩



def isWarning (s : Sugg) : Bool := s.kind == "warning"

/-- The high-spending rule restricted to its warning branch. -/
def warnOf (cd : String × CatStats) : Option Sugg :=
  if 30 < cd.2.percentage_of_total then some (warnSugg cd.1 cd.2) else none

/-- Well-formedness of the trends dict the engine receives: when a trend is
announced, the weekly-average keys the messages interpolate are present. -/
def trendsWF (tr : TrendsDict) : Prop :=
  (tr.trend = some "increasing" ∨ tr.trend = some "decreasing") →
    (tr.recent_weekly_avg ≠ none ∧ tr.earlier_weekly_avg ≠ none)

theorem prio_le_three (p : String) : priorityOrder p ≤ 3 := by
  unfold priorityOrder
  by_cases h1 : p == "high"
  · simp [h1]
  · by_cases h2 : p == "medium" <;> simp [h1, h2]

theorem trendSuggs_ok (tr : TrendsDict) (h : trendsWF tr) :
    ∃ ts, trendSuggs tr = Except.ok ts ∧ ts.filter isWarning = [] := by
  unfold trendSuggs
  by_cases hi : (tr.trend == some "increasing") = true
  · have hti : tr.trend = some "increasing" := by simpa using hi
    rcases h (Or.inl hti) with ⟨hr, he⟩
    obtain ⟨r, hrr⟩ := Option.ne_none_iff_exists'.mp hr
    obtain ⟨e, hee⟩ := Option.ne_none_iff_exists'.mp he
    refine ⟨[alertSugg], ?_, by simp [isWarning, alertSugg]⟩
    rw [if_pos hi, hrr, hee]
    rfl
  · by_cases hd : (tr.trend == some "decreasing") = true
    · have htd : tr.trend = some "decreasing" := by simpa using hd
      rcases h (Or.inr htd) with ⟨hr, he⟩
      obtain ⟨r, hrr⟩ := Option.ne_none_iff_exists'.mp hr
      obtain ⟨e, hee⟩ := Option.ne_none_iff_exists'.mp he
      refine ⟨[positiveSugg], ?_, by simp [isWarning, positiveSugg]⟩
      rw [if_neg hi, if_pos hd, hrr, hee]
      rfl
    · refine ⟨[], ?_, rfl⟩
      rw [if_neg hi, if_neg hd]
      rfl

theorem isWarning_warnSugg (c : String) (d : CatStats) :
    isWarning (warnSugg c d) = true := rfl

theorem isWarning_tipSugg (c : String) (d : CatStats) :
    isWarning (tipSugg c d) = false := rfl

theorem filter_highCatSuggs (ca : List (String × CatStats)) :
    (highCatSuggs ca).filter isWarning = ((sortLe catLe ca).take 3).filterMap warnOf := by
  unfold highCatSuggs
  generalize (sortLe catLe ca).take 3 = l
  induction l with
  | nil => rfl
  | cons cd l ih =>
    by_cases h30 : 30 < cd.2.percentage_of_total
    · simp [warnOf, h30, List.filter_cons, isWarning_warnSugg, ih]
    · by_cases h20 : 20 < cd.2.percentage_of_total
      · simp [warnOf, h30, h20, List.filter_cons, isWarning_tipSugg, ih]
      · simp [warnOf, h30, h20, ih]

theorem filter_freqSuggs (ca : List (String × CatStats)) :
    (freqSuggs ca).filter isWarning = [] := by
  unfold freqSuggs
  induction ca with
  | nil => rfl
  | cons cd l ih =>
    by_cases h : 15 < cd.2.transaction_count
    · simp only [List.filterMap_cons, h, if_pos]
      rw [List.filter_cons]
      simpa [isWarning, freqSugg] using ih
    · simpa [List.filterMap_cons, h] using ih

theorem filter_budgetSuggs (total : ℚ) :
    (budgetSuggs total).filter isWarning = [] := by
  unfold budgetSuggs
  by_cases h : 0 < total <;> simp [h, isWarning, budgetSugg]

theorem mem_warnOf_priority (s : Sugg) (cd : String × CatStats)
    (h : warnOf cd = some s) : s.priority = "high" ∧ s.kind = "warning" := by
  unfold warnOf at h
  by_cases h30 : 30 < cd.2.percentage_of_total
  · rw [if_pos h30] at h
    cases h
    exact ⟨rfl, rfl⟩
  · rw [if_neg h30] at h
    cases h

theorem filter_sortLe_suggs (l : List Sugg)
    (hP : ∀ s ∈ l, isWarning s = true → priorityOrder s.priority = 3) :
    (sortLe suggLe l).filter isWarning = l.filter isWarning := by
  induction l with
  | nil => rfl
  | cons x xs ih =>
    have ih2 := ih (fun s hs hw => hP s (List.mem_cons_of_mem x hs) hw)
    show (insertLe suggLe x (sortLe suggLe xs)).filter isWarning
      = (x :: xs).filter isWarning
    cases hx : isWarning x
    · rw [filter_insertLe_of_neg suggLe isWarning x _ hx, ih2, List.filter_cons, hx]
      simp
    · have h3 : priorityOrder x.priority = 3 := hP x (List.mem_cons_self x xs) hx
      rw [insertLe_front suggLe x _ (fun y => by
        unfold suggLe
        rw [h3]
        exact decide_eq_true (prio_le_three y.priority))]
      rw [List.filter_cons, List.filter_cons, hx, ih2]

/-- C7: in the suggestion engine, the emitted warning suggestions are exactly
the warning rule applied to the top 3 categories by total_spent (descending),
each with suggested_reduction = total_spent × 0.175 rounded to 2 decimals;
and for the records Food 350 / Rent 650 the comprehensive pipeline's
suggestion list contains the warning/high entry for "Food" with
suggested_reduction 61.25. -/
theorem C7_warning_rule :
    (∀ (ca : List (String × CatStats)) (tr : TrendsDict) (total : ℚ),
      trendsWF tr →
        (generate_smart_suggestions ca tr total).filter isWarning
          = ((sortLe catLe ca).take 3).filterMap warnOf)
    ∧ foodWarn ∈ (get_comprehensive_analysis (Timestamp.toQ ⟨2024, 5, 20, 0⟩) exC7 "u").suggestions := by
  constructor
  · intro ca tr total hwf
    unfold generate_smart_suggestions
    by_cases hca : ca.isEmpty = true
    · rw [if_pos hca]
      have : ca = [] := List.isEmpty_iff.mp hca
      subst this
      simp [infoSugg, isWarning, sortLe]
    · rw [if_neg hca]
      rcases trendSuggs_ok tr hwf with ⟨ts, hts, htsf⟩
      have hbody : suggBody ca tr total
          = Except.ok (if (sortLe suggLe (highCatSuggs ca ++ ts ++ freqSuggs ca ++ budgetSuggs total)).isEmpty
              then [balancedSugg]
              else sortLe suggLe (highCatSuggs ca ++ ts ++ freqSuggs ca ++ budgetSuggs total)) := by
        unfold suggBody
        rw [hts]
        rfl
      rw [hbody]
      have hall : (highCatSuggs ca ++ ts ++ freqSuggs ca ++ budgetSuggs total).filter isWarning
          = ((sortLe catLe ca).take 3).filterMap warnOf := by
        rw [List.filter_append, List.filter_append, List.filter_append]
        rw [filter_highCatSuggs, htsf, filter_freqSuggs, filter_budgetSuggs]
        simp
      by_cases hE : (sortLe suggLe (highCatSuggs ca ++ ts ++ freqSuggs ca ++ budgetSuggs total)).isEmpty = true
      · rw [if_pos hE]
        have hnil : highCatSuggs ca ++ ts ++ freqSuggs ca ++ budgetSuggs total = [] := by
          have := List.isEmpty_iff.mp hE
          have hperm := perm_sortLe suggLe (highCatSuggs ca ++ ts ++ freqSuggs ca ++ budgetSuggs total)
          rw [this] at hperm
          exact (List.Perm.nil_eq hperm).symm
        rw [hnil] at hall
        rw [← hall]
        simp [balancedSugg, isWarning]
      · rw [if_neg hE]
        rw [filter_sortLe_suggs _ ?hP, hall]
        case hP =>
          intro s hs hw
          rcases List.mem_append.mp hs with hs1 | hs4
          · rcases List.mem_append.mp hs1 with hs2 | hs3
            · rcases List.mem_append.mp hs2 with hsh | hst
              · have : s ∈ (highCatSuggs ca).filter isWarning :=
                  List.mem_filter.mpr ⟨hsh, hw⟩
                rw [filter_highCatSuggs] at this
                rcases List.mem_filterMap.mp this with ⟨cd, _, hcd⟩
                rw [(mem_warnOf_priority s cd hcd).1]
                rfl
              · have : s ∈ ts.filter isWarning := List.mem_filter.mpr ⟨hst, hw⟩
                rw [htsf] at this
                simp at this
            · have : s ∈ (freqSuggs ca).filter isWarning := List.mem_filter.mpr ⟨hs3, hw⟩
              rw [filter_freqSuggs] at this
              simp at this
          · have : s ∈ (budgetSuggs total).filter isWarning := List.mem_filter.mpr ⟨hs4, hw⟩
            rw [filter_budgetSuggs] at this
            simp at this
  · with_unfolding_all decide

/-- C7 witness: the warning-rule characterisation applied at the category
analysis of the Food/Rent example with an empty trends dict. -/
theorem C7_witness :
    trendsWF emptyTrendsDict
    ∧ (generate_smart_suggestions (analyze_spending_by_category exC7) emptyTrendsDict 1000).filter isWarning
        = ((sortLe catLe (analyze_spending_by_category exC7)).take 3).filterMap warnOf :=
  ⟨by intro h; rcases h with h | h <;> simp [emptyTrendsDict] at h,
    C7_warning_rule.1 (analyze_spending_by_category exC7) emptyTrendsDict 1000
      (by intro h; rcases h with h | h <;> simp [emptyTrendsDict] at h)⟩



theorem catStatsFor_percentage (rs : List Expense) (T : ℚ) (c : String) :
    (catStatsFor rs T c).percentage_of_total
      = if 0 < T then round2 (round2 (catSum rs c) / T * 100) else 0 := rfl

theorem sum_map_mul {α : Type} (l : List α) (f : α → ℚ) (b : ℚ) :
    (l.map (fun a => f a * b)).sum = (l.map f).sum * b := by
  induction l with
  | nil => simp
  | cons x xs ih =>
    simp only [List.map_cons, List.sum_cons, ih]
    ring

/-- C3 counterexample: for the records 0.004/0.004/0.012 (total 0.02) the
group sums round to 0, 0 and 0.01 before percentages are taken, so the
reported percentages are 0, 0 and 50, summing to 50 — far outside 100 ± 0.1
even though total spending is positive. -/
theorem C3_counterexample :
    ((analyze_spending_by_category exC3).map (fun cd => cd.2.percentage_of_total)).sum = 50
    ∧ totalAmount exC3 = 1 / 50 ∧ 0 < totalAmount exC3
    ∧ ¬ (|(50 : ℚ) - 100| ≤ 1 / 10) := by
  with_unfolding_all decide

/-- C3 (amended): with positive total spending `T` over `n` reported
categories, the percentage sum lies within `n * (1/200 + 1/(2T))` of 100 (the
1/200 is the final rounding of each percentage, the 1/(2T) the pandas
rounding of each group sum before dividing); the ±0.1 tolerance of the
original claim holds only in special cases such as at most 20 categories with
cent-multiple amounts.  When total spending is 0 each percentage is 0. -/
theorem C3_percentage_sum_bound :
    (∀ rs : List Expense, 0 < totalAmount rs →
      |((analyze_spending_by_category rs).map (fun cd => cd.2.percentage_of_total)).sum - 100|
        ≤ ((analyze_spending_by_category rs).length : ℚ)
            * (1 / 200 + 1 / (2 * totalAmount rs)))
    ∧ (∀ rs : List Expense, totalAmount rs = 0 →
        ∀ cd ∈ analyze_spending_by_category rs, cd.2.percentage_of_total = 0) := by
  constructor
  · intro rs hT
    have hmap : (analyze_spending_by_category rs).map (fun cd => cd.2.percentage_of_total)
        = (sortedCategories rs).map
            (fun c => round2 (round2 (catSum rs c) / totalAmount rs * 100)) := by
      unfold analyze_spending_by_category
      rw [List.map_map]
      apply List.map_congr_left
      intro c _
      show (catStatsFor rs (totalAmount rs) c).percentage_of_total = _
      rw [catStatsFor_percentage, if_pos hT]
    have hlen : (analyze_spending_by_category rs).length = (sortedCategories rs).length := by
      unfold analyze_spending_by_category
      rw [List.length_map]
    have hnd : (sortedCategories rs).Nodup :=
      ((perm_sortLe strLe _).nodup_iff).mpr (nodup_keysInOrder _)
    have hcov : ∀ r ∈ rs, r.category ∈ sortedCategories rs := by
      intro r hr
      exact (mem_sortLe strLe _ _).mpr
        ((mem_keysInOrder _ _).mpr (List.mem_map_of_mem _ hr))
    have hbase :
        ((sortedCategories rs).map (fun c => catSum rs c * (100 / totalAmount rs))).sum = 100 := by
      rw [sum_map_mul, sum_catSum _ rs hnd hcov]
      field_simp
    have hdev : ∀ c ∈ sortedCategories rs,
        |round2 (round2 (catSum rs c) / totalAmount rs * 100)
          - catSum rs c * (100 / totalAmount rs)|
          ≤ 1 / 200 + 1 / (2 * totalAmount rs) := by
      intro c _
      have h1 := abs_round2_sub_le (round2 (catSum rs c) / totalAmount rs * 100)
      have h2 := abs_round2_sub_le (catSum rs c)
      have heq : round2 (catSum rs c) / totalAmount rs * 100
            - catSum rs c * (100 / totalAmount rs)
          = (round2 (catSum rs c) - catSum rs c) * (100 / totalAmount rs) := by
        field_simp
        ring
      have h3 : |round2 (catSum rs c) / totalAmount rs * 100
            - catSum rs c * (100 / totalAmount rs)|
          ≤ 1 / (2 * totalAmount rs) := by
        rw [heq, abs_mul]
        have hpos : |(100 : ℚ) / totalAmount rs| = 100 / totalAmount rs :=
          abs_of_pos (by positivity)
        rw [hpos]
        calc |round2 (catSum rs c) - catSum rs c| * (100 / totalAmount rs)
            ≤ (1 / 200) * (100 / totalAmount rs) :=
              mul_le_mul_of_nonneg_right h2 (by positivity)
          _ = 1 / (2 * totalAmount rs) := by
              have hTne : totalAmount rs ≠ 0 := ne_of_gt hT
              field_simp
              ring
      calc |round2 (round2 (catSum rs c) / totalAmount rs * 100)
            - catSum rs c * (100 / totalAmount rs)|
          ≤ |round2 (round2 (catSum rs c) / totalAmount rs * 100)
              - round2 (catSum rs c) / totalAmount rs * 100|
            + |round2 (catSum rs c) / totalAmount rs * 100
              - catSum rs c * (100 / totalAmount rs)| := abs_sub_le _ _ _
        _ ≤ 1 / 200 + 1 / (2 * totalAmount rs) := add_le_add h1 h3
    rw [hmap, hlen]
    have hsub :
        ((sortedCategories rs).map
            (fun c => round2 (round2 (catSum rs c) / totalAmount rs * 100))).sum - 100
        = ((sortedCategories rs).map
            (fun c => round2 (round2 (catSum rs c) / totalAmount rs * 100)
              - catSum rs c * (100 / totalAmount rs))).sum := by
      rw [sum_map_sub, hbase]
    rw [hsub]
    exact abs_sum_le _ _ _ hdev
  · intro rs h0 cd hcd
    unfold analyze_spending_by_category at hcd
    rcases List.mem_map.mp hcd with ⟨c, _, rfl⟩
    show (catStatsFor rs (totalAmount rs) c).percentage_of_total = 0
    rw [catStatsFor_percentage, if_neg (by rw [h0]; exact lt_irrefl 0)]

/-- C3 witness: the amended bound evaluated at the counterexample records. -/
theorem C3_witness :
    0 < totalAmount exC3
    ∧ |((analyze_spending_by_category exC3).map (fun cd => cd.2.percentage_of_total)).sum - 100|
        ≤ ((analyze_spending_by_category exC3).length : ℚ)
            * (1 / 200 + 1 / (2 * totalAmount exC3)) :=
  ⟨by with_unfolding_all decide,
    C3_percentage_sum_bound.1 exC3 (by with_unfolding_all decide)⟩

end ExpenseAnalyzer
